import Mathlib

/-!
Verification of cargo-emerge against its specification.

The Rust sources are embedded shallowly: pure string manipulation becomes
functions on `String`/`List Char`, the manifest-resolution logic becomes
functions over structures mirroring the serde data model, and the staging /
archive / disk-image drivers become trace-producing functions over an
abstract file-existence predicate. Each definition's doc comment names the
source function and lines it embeds.
-/

namespace CargoEmerge

/-! ## String utilities

The Rust code uses `str::lines`, `str::contains`, `str::starts_with`,
`str::split_whitespace` and `str::replace`. These are modeled on `List Char`
with structural recursion so that every concrete instance evaluates in the
kernel. -/

/-- Splits a character list at every character satisfying `p`; separators are
dropped and empty segments are kept (the accumulator holds the current segment
reversed). -/
def splitByAux (p : Char → Bool) : List Char → List Char → List (List Char)
  | [], acc => [acc.reverse]
  | c :: rest, acc =>
    if p c then acc.reverse :: splitByAux p rest []
    else splitByAux p rest (c :: acc)

/-- Splits a character list at every character satisfying `p`. -/
def splitBy (p : Char → Bool) (s : List Char) : List (List Char) :=
  splitByAux p s []

/-- Model of Rust `str::contains` with a string pattern: whether `pat` occurs
as a contiguous subsequence of `s`. -/
def containsSeq (pat : List Char) : List Char → Bool
  | [] => pat.isEmpty
  | c :: rest => pat.isPrefixOf (c :: rest) || containsSeq pat rest

/-- String-level wrapper for `containsSeq`. -/
def strContains (s pat : String) : Bool :=
  containsSeq pat.toList s.toList

/-- Model of Rust `str::starts_with` with a string pattern. -/
def strStartsWith (s pat : String) : Bool :=
  pat.toList.isPrefixOf s.toList

/-- Model of Rust `str::split_whitespace`: split at whitespace characters and
drop the empty segments. -/
def splitWhitespace (s : String) : List String :=
  ((splitBy Char.isWhitespace s.toList).map List.asString).filter (fun t => t ≠ "")

/-- Model of Rust `str::lines`: split at newline characters. -/
def strLines (s : String) : List String :=
  (splitBy (fun c => c = '\n') s.toList).map List.asString

/-- Model of Rust `str::replace`: replace every non-overlapping occurrence of
`pat` from left to right by `rep`. `fuel` bounds the recursion; every step
consumes at least one character of the subject, so fuel equal to the subject's
length is never exhausted. The program never calls this with an empty
pattern. -/
def replaceFuel (pat rep : List Char) : Nat → List Char → List Char
  | _, [] => []
  | 0, s => s
  | Nat.succ fuel, c :: rest =>
    if !pat.isEmpty && pat.isPrefixOf (c :: rest) then
      rep ++ replaceFuel pat rep fuel (List.drop pat.length (c :: rest))
    else
      c :: replaceFuel pat rep fuel rest

/-- String-level wrapper for `replaceFuel`. -/
def strReplace (s pat rep : String) : String :=
  (replaceFuel pat.toList rep.toList s.toList.length s.toList).asString

/-- Model of `PathBuf::join`: an absolute right operand replaces the left one,
otherwise the components are joined with a separator. -/
def joinPath (base p : String) : String :=
  if strStartsWith p "/" then p else base ++ "/" ++ p

/-- Model of `Path::parent` as used on freshly joined destination paths: the
path with its final separator-delimited component removed. -/
def parentOf (p : String) : String :=
  String.intercalate "/" (((splitBy (fun c => c = '/') p.toList).dropLast).map List.asString)

/-- Model of `Path::file_name`: the final separator-delimited component. -/
def fileNameOf (p : String) : String :=
  (((splitBy (fun c => c = '/') p.toList).map List.asString).getLastD "")

/-- Model of `Path::extension`: the part of the file name after its last dot;
`none` when the name contains no dot, or when its only dot is the leading
one. -/
def extensionOf (p : String) : Option String :=
  match splitBy (fun c => c = '.') (fileNameOf p).toList with
  | [] => none
  | [_] => none
  | first :: restParts =>
    if first.isEmpty && restParts.length == 1 then none
    else some ((restParts.getLastD []).asString)

/-! ## Template resolver (src/tpl.rs) -/

/-- Tpl (src/tpl.rs lines 4-18): the registered variables. Rust stores them in
a `HashMap` whose iteration order is unspecified; the model makes the
iteration order explicit as the list order. -/
def Tpl := List (String × String)

/-- Tpl::parse (src/tpl.rs lines 21-30): starting from the input, for each
registered key in iteration order, replace every occurrence of `$KEY` in the
accumulated result by the key's value. -/
def Tpl.parse (tpl : Tpl) (input : String) : String :=
  tpl.foldl (fun result kv => strReplace result ("$" ++ kv.1) kv.2) input

/-- Tpl::parse_vec (src/tpl.rs lines 33-35). -/
def Tpl.parseVec (tpl : Tpl) (input : List String) : List String :=
  input.map (fun s => Tpl.parse tpl s)

/-! ## Manifest data model (src/manifest.rs)

The serde structures are mirrored field for field. The unused
`CargoToml.dependencies` map is omitted: no code path reads it. Positions are
`i32` pairs in the source, modeled as `Int` pairs; the one place their
arithmetic matters (the window bounds) goes through an explicit 32-bit
wrapping addition. -/

/-- DmgFile (src/manifest.rs lines 151-155). -/
structure DmgFile where
  source : String
  position : Int × Int
deriving DecidableEq

/-- DmgConfig (src/manifest.rs lines 130-149). -/
structure DmgConfig where
  background : Option String
  window_position : Option (Int × Int)
  window_size : Option (Int × Int)
  app_position : Option (Int × Int)
  applications_position : Option (Int × Int)
  additional_files : List DmgFile
deriving DecidableEq

/-- EmergeConfig (src/manifest.rs lines 100-128). The `copy` field is a list
of maps in the source; each map is modeled as an association list in
iteration order. -/
structure EmergeConfig where
  title : Option String
  filename : Option String
  build : List String
  copy : List (List (String × String))
  output_folder : Option String
  icon : Option String
  dmg : Option DmgConfig
  manifest : Option String
deriving DecidableEq

/-- Metadata (src/manifest.rs lines 94-98). -/
structure Metadata where
  emerge : Option EmergeConfig
deriving DecidableEq

/-- Package (src/manifest.rs lines 38-48): `name` and `version` come through
`deserialize_string_or_workspace`, so they are plain strings here (a
workspace reference already collapsed to its placeholder). -/
structure Package where
  name : String
  version : String
  description : Option String
  metadata : Option Metadata
deriving DecidableEq

/-- WorkspacePackage (src/manifest.rs lines 26-36). -/
structure WorkspacePackage where
  name : Option String
  version : Option String
  description : Option String
  metadata : Option Metadata
deriving DecidableEq

/-- Workspace (src/manifest.rs lines 20-24). -/
structure Workspace where
  package : Option WorkspacePackage
deriving DecidableEq

/-- CargoToml (src/manifest.rs lines 10-18), minus the unread `dependencies`
map. -/
structure CargoToml where
  package : Option Package
  workspace : Option Workspace
deriving DecidableEq

/-- The value deserialize_string_or_workspace (src/manifest.rs lines 51-71)
receives: either a TOML string or a workspace reference table. -/
inductive StringOrWorkspace
  | str (s : String)
  | workspace
deriving DecidableEq

/-- deserialize_string_or_workspace (src/manifest.rs lines 51-71): a plain
string is kept; a workspace reference table deserializes to the empty-string
placeholder. -/
def deserializeStringOrWorkspace : StringOrWorkspace → String
  | .str s => s
  | .workspace => ""

/-- Manifest (src/manifest.rs lines 157-170): the resolved package plan. -/
structure Manifest where
  name : String
  version : String
  description : String
  title : String
  filename : String
  build_commands : List String
  copy_operations : List (String × String)
  output_folder : String
  icon : Option String
  dmg : Option DmgConfig
deriving DecidableEq

/-- Error kinds of src/error.rs that manifest resolution produces. -/
inductive ErrKind
  | manifestNotFound
  | invalidManifest
deriving DecidableEq

/-- Outcome of one resolution step: a redirect to an external manifest file,
a resolved manifest, or an error. -/
inductive LoadOutcome
  | redirect (path : String)
  | ok (m : Manifest)
  | err (e : ErrKind)
deriving DecidableEq

/-- Whether a load outcome is an error. -/
def isErrOutcome : LoadOutcome → Bool
  | .err _ => true
  | _ => false

/-- Manifest::process_manifest (src/manifest.rs lines 286-348). In the source
this returns `Result` but has no failure path, so it is a plain function
here. The template variables live in a `HashMap` whose iteration order is
unspecified; the model fixes the registration order NAME, VERSION,
PLATFORM. -/
def processManifest (baseDir platform : String) (package : Package)
    (cfg : EmergeConfig) : Manifest :=
  let tpl : Tpl := [("NAME", package.name), ("VERSION", package.version),
                    ("PLATFORM", platform)]
  { name := package.name
    version := package.version
    description := package.description.getD ""
    title := (cfg.title.map (Tpl.parse tpl)).getD package.name
    filename := (cfg.filename.map (Tpl.parse tpl)).getD
      (package.name ++ "-" ++ platform ++ "-" ++ package.version)
    build_commands := Tpl.parseVec tpl cfg.build
    copy_operations := cfg.copy.flatMap (fun copyMap =>
      copyMap.map (fun sd =>
        (joinPath baseDir (Tpl.parse tpl sd.1), Tpl.parse tpl sd.2)))
    output_folder := (cfg.output_folder.map
      (fun f => joinPath baseDir (Tpl.parse tpl f))).getD (joinPath baseDir "setup")
    icon := cfg.icon.map (fun i => joinPath baseDir (Tpl.parse tpl i))
    dmg := cfg.dmg }

/-- Manifest::load (src/manifest.rs lines 174-226) after TOML parsing: a
workspace-level emerge manifest path wins and redirects; otherwise an
embedded package is required, its emerge section is required, and a manifest
path inside it redirects; otherwise the manifest is processed in place. -/
def loadManifest (baseDir platform : String) (cargo : CargoToml) : LoadOutcome :=
  match (((cargo.workspace.bind Workspace.package).bind
      WorkspacePackage.metadata).bind Metadata.emerge).bind EmergeConfig.manifest with
  | some path => .redirect path
  | none =>
    match cargo.package with
    | some package =>
      match package.metadata.bind Metadata.emerge with
      | none => .err .invalidManifest
      | some emergeConfig =>
        match emergeConfig.manifest with
        | some path => .redirect path
        | none => .ok (processManifest baseDir platform package emergeConfig)
    | none => .err .invalidManifest

/-- The two parse attempts Manifest::load_with_emerge_manifest makes on the
external file's text: first as a full CargoToml, then as a standalone
EmergeConfig. `none` means that parse fails. -/
structure ExternalFileParse where
  asCargoToml : Option CargoToml
  asEmergeConfig : Option EmergeConfig
deriving DecidableEq

/-- Manifest::load_with_emerge_manifest (src/manifest.rs lines 229-283): a
missing file is ManifestNotFound; a full CargoToml with a package carrying an
emerge section is processed in place (its own `manifest` field is never
consulted); a package without an emerge section, a standalone emerge
configuration, and an unparsable file are all InvalidManifest (with distinct
messages in the source). -/
def loadWithEmergeManifest (baseDir platform : String) (fileExists : Bool)
    (parsed : ExternalFileParse) : LoadOutcome :=
  if fileExists = false then .err .manifestNotFound
  else
    match parsed.asCargoToml with
    | some fullToml =>
      match fullToml.package with
      | some package =>
        match package.metadata.bind Metadata.emerge with
        | some emerge => .ok (processManifest baseDir platform package emerge)
        | none => .err .invalidManifest
      | none =>
        match parsed.asEmergeConfig with
        | some _ => .err .invalidManifest
        | none => .err .invalidManifest
    | none =>
      match parsed.asEmergeConfig with
      | some _ => .err .invalidManifest
      | none => .err .invalidManifest

/-! ## Filesystem actions

The staging, archive and dmg drivers are modeled as producers of ordered
traces of filesystem effects over an abstract file-existence predicate. -/

/-- One filesystem effect of the staging and packaging code. -/
inductive FsAction
  | createDirAll (p : String)
  | removeDirAll (p : String)
  | copyFile (src dst : String)
  | setPermissions (p : String) (mode : Nat)
  | createFile (p : String)
deriving DecidableEq

/-! ## Disk-image driver (src/macos/dmg.rs) -/

/-- Mount-point extraction in create_dmg_image (src/macos/dmg.rs lines
280-287): find the first line of the hdiutil attach output containing
"/Volumes/", then take the first whitespace-separated token of that line
starting with "/Volumes/". -/
def extractMountPoint (mountOutput : String) : Option String :=
  ((strLines mountOutput).find? (fun line => strContains line "/Volumes/")).bind
    (fun line => (splitWhitespace line).find? (fun part => strStartsWith part "/Volumes/"))

/-- The documentation-extension test of the DMG staging loop (src/macos/dmg.rs
line 37). -/
def dmgIsDocumentation (ext : Option String) : Bool :=
  match ext with
  | some "md" | some "txt" | some "pdf" | some "html" | some "toml" => true
  | _ => false

/-- Where the DMG staging loop sends a copy destination. -/
inductive DmgRoute
  | dmgRoot
  | macosFolder
deriving DecidableEq

/-- Routing decision of the DMG staging loop (src/macos/dmg.rs lines 33-45):
documentation extensions go to the DMG root, everything else into the app
bundle's MacOS folder. -/
def dmgRouteOf (dst : String) : DmgRoute :=
  if dmgIsDocumentation (extensionOf dst) then .dmgRoot else .macosFolder

/-- Destination path of one copy operation in the DMG staging loop
(src/macos/dmg.rs lines 39-45): `temp_dir.join(dst)` for documentation,
`macos_dir.join(dst)` otherwise. -/
def dmgDestPath (tempDir macosDir : String) (dst : String) : String :=
  if dmgIsDocumentation (extensionOf dst) then joinPath tempDir dst
  else joinPath macosDir dst

/-- The icns::IconType variants used by generate_icns_from_image
(src/macos/dmg.rs lines 195-206). -/
inductive IconType
  | RGBA32_16x16
  | RGBA32_16x16_2x
  | RGBA32_32x32
  | RGBA32_32x32_2x
  | RGBA32_128x128
  | RGBA32_128x128_2x
  | RGBA32_256x256
  | RGBA32_256x256_2x
  | RGBA32_512x512
  | RGBA32_512x512_2x
deriving DecidableEq

/-- The image::imageops::FilterType variants of the image crate. -/
inductive FilterType
  | Nearest
  | Triangle
  | CatmullRom
  | Gaussian
  | Lanczos3
deriving DecidableEq

/-- A decoded source image; pixel content is opaque to the claims, so images
are distinguished by an abstract identifier. -/
structure DynamicImage where
  id : Nat
deriving DecidableEq

/-- The result of image::DynamicImage::resize_exact, symbolically: the source
image, the exact target dimensions and the resampling filter. -/
structure ResizedImage where
  src : DynamicImage
  width : Nat
  height : Nat
  filter : FilterType
deriving DecidableEq

/-- image::DynamicImage::resize_exact modeled symbolically. -/
def resizeExact (img : DynamicImage) (w h : Nat) (f : FilterType) : ResizedImage :=
  ⟨img, w, h, f⟩

/-- The icon type / pixel size table of generate_icns_from_image
(src/macos/dmg.rs lines 195-206). -/
def iconTypes : List (IconType × Nat) :=
  [(.RGBA32_16x16, 16), (.RGBA32_16x16_2x, 32),
   (.RGBA32_32x32, 32), (.RGBA32_32x32_2x, 64),
   (.RGBA32_128x128, 128), (.RGBA32_128x128_2x, 256),
   (.RGBA32_256x256, 256), (.RGBA32_256x256_2x, 512),
   (.RGBA32_512x512, 512), (.RGBA32_512x512_2x, 1024)]

/-- generate_icns_from_image (src/macos/dmg.rs lines 184-237): decoding the
source is a hard failure; otherwise, for each table entry, the original image
is resized to size x size with the Lanczos3 filter and added to the icon
family. The input is the outcome of the decode step. -/
def generateIcnsFromImage (decoded : Option DynamicImage) :
    Except String (List (IconType × ResizedImage)) :=
  match decoded with
  | none => .error "image decode failed"
  | some img => .ok (iconTypes.map (fun ts => (ts.1, resizeExact img ts.2 ts.2 .Lanczos3)))

/-- The pixel widths of a generated icon family, `none` on decode failure. -/
def icnsPixelSizes (r : Except String (List (IconType × ResizedImage))) :
    Option (List Nat) :=
  match r with
  | .ok entries => some (entries.map (fun e => e.2.width))
  | .error _ => none

/-- Wraps an integer into the value range of a Rust `i32`. -/
def i32wrap (x : Int) : Int :=
  (x + 2 ^ 31) % 2 ^ 32 - 2 ^ 31

/-- Rust release-mode `i32` addition (wrapping on overflow). -/
def i32add (a b : Int) : Int :=
  i32wrap (a + b)

/-- Window bounds interpolated into the AppleScript by
customize_dmg_appearance (src/macos/dmg.rs lines 350-356 and 403-404):
position defaults to (100, 100), size to (600, 400), and the bounds are
(x, y, x + width, y + height). -/
def windowBounds (dmg : Option DmgConfig) : Int × Int × Int × Int :=
  let windowPos := (dmg.bind DmgConfig.window_position).getD (100, 100)
  let windowSize := (dmg.bind DmgConfig.window_size).getD (600, 400)
  (windowPos.1, windowPos.2,
   i32add windowPos.1 windowSize.1, i32add windowPos.2 windowSize.2)

/-- The bounds line of the generated layout script (src/macos/dmg.rs line
388). -/
def boundsLine (b : Int × Int × Int × Int) : String :=
  "set the bounds of container window to \x7b" ++ toString b.1 ++ ", "
    ++ toString b.2.1 ++ ", " ++ toString b.2.2.1 ++ ", " ++ toString b.2.2.2 ++ "\x7d"

/-- Background-image step of customize_dmg_appearance (src/macos/dmg.rs lines
366-376): when the plan names a background image and the file exists under
the base directory, a hidden `.background` folder is created on the volume
and the image copied into it; when the file does not exist, nothing is done
and no error is raised. The only failure paths of the step are the
filesystem calls inside the exists-branch, so the result is the action
trace. -/
def copyBackgroundStep (fileExists : String → Bool) (baseDir : String)
    (dmg : Option DmgConfig) (mountPoint : String) : Except String (List FsAction) :=
  match dmg.bind DmgConfig.background with
  | some bgPath =>
    let bgSrc := joinPath baseDir bgPath
    if fileExists bgSrc then
      .ok [FsAction.createDirAll (joinPath mountPoint ".background"),
           FsAction.copyFile bgSrc (joinPath (joinPath mountPoint ".background") "background.png")]
    else
      .ok []
  | none => .ok []

/-! ## Archive emitters (src/linux/archive.rs, src/windows/archive.rs) -/

/-- The documentation-extension test of the tar.gz permission step
(src/linux/archive.rs line 47). -/
def archiveIsDocumentation (ext : Option String) : Bool :=
  match ext with
  | some "md" | some "txt" | some "pdf" | some "html" | some "toml"
  | some "json" | some "yml" | some "yaml" => true
  | _ => false

/-- Copy loop of create_tar_gz (src/linux/archive.rs lines 29-58): for each
operation, create the destination's parent directory, copy
(utils::copy_recursively fails when the source is missing, stopping the
loop), then chmod 0o755 unless the destination has a documentation extension
(the source's metadata/is_file guard is vacuous here because file contents
are abstract). Returns the actions performed and the first missing source. -/
def tarCopyLoop (fileExists : String → Bool) (appDir : String) :
    List (String × String) → List FsAction × Option String
  | [] => ([], none)
  | (src, dst) :: rest =>
    let destPath := joinPath appDir dst
    if fileExists src then
      (FsAction.createDirAll (parentOf destPath) :: FsAction.copyFile src destPath ::
        ((if archiveIsDocumentation (extensionOf dst) then []
          else [FsAction.setPermissions destPath 0o755])
          ++ (tarCopyLoop fileExists appDir rest).1),
       (tarCopyLoop fileExists appDir rest).2)
    else
      ([FsAction.createDirAll (parentOf destPath)], some src)

/-- create_tar_gz (src/linux/archive.rs lines 11-71) as the ordered trace of
its filesystem effects with the first error: ensure the output folder, wipe
and recreate the staging directory, create the application directory, run the
copy loop, and only when every copy succeeded open the archive file at
output_folder/filename.tar.gz (create_tar_gz_file, line 74) and finally drop
the staging directory. -/
def createTarGz (fileExists : String → Bool) (tmpRoot : String) (m : Manifest) :
    List FsAction × Option String :=
  let tempDir := joinPath tmpRoot ("emerge-" ++ m.name)
  let appDir := joinPath tempDir m.name
  let pre := [FsAction.createDirAll m.output_folder, FsAction.removeDirAll tempDir,
              FsAction.createDirAll tempDir, FsAction.createDirAll appDir]
  match (tarCopyLoop fileExists appDir m.copy_operations).2 with
  | some missing => (pre ++ (tarCopyLoop fileExists appDir m.copy_operations).1, some missing)
  | none =>
    (pre ++ (tarCopyLoop fileExists appDir m.copy_operations).1
      ++ [FsAction.createFile (joinPath m.output_folder (m.filename ++ ".tar.gz")),
          FsAction.removeDirAll tempDir], none)

/-- Copy loop of create_zip (src/windows/archive.rs lines 31-44): like the
tar.gz loop but with no permission step. -/
def zipCopyLoop (fileExists : String → Bool) (appDir : String) :
    List (String × String) → List FsAction × Option String
  | [] => ([], none)
  | (src, dst) :: rest =>
    let destPath := joinPath appDir dst
    if fileExists src then
      (FsAction.createDirAll (parentOf destPath) :: FsAction.copyFile src destPath ::
        (zipCopyLoop fileExists appDir rest).1,
       (zipCopyLoop fileExists appDir rest).2)
    else
      ([FsAction.createDirAll (parentOf destPath)], some src)

/-- create_zip (src/windows/archive.rs lines 13-57) as the ordered trace of
its filesystem effects with the first error: same shape as createTarGz, the
archive file at output_folder/filename.zip being opened by create_zip_file
(line 60) only after the copy loop finished. -/
def createZip (fileExists : String → Bool) (tmpRoot : String) (m : Manifest) :
    List FsAction × Option String :=
  let tempDir := joinPath tmpRoot ("emerge-" ++ m.name)
  let appDir := joinPath tempDir m.name
  let pre := [FsAction.createDirAll m.output_folder, FsAction.removeDirAll tempDir,
              FsAction.createDirAll tempDir, FsAction.createDirAll appDir]
  match (zipCopyLoop fileExists appDir m.copy_operations).2 with
  | some missing => (pre ++ (zipCopyLoop fileExists appDir m.copy_operations).1, some missing)
  | none =>
    (pre ++ (zipCopyLoop fileExists appDir m.copy_operations).1
      ++ [FsAction.createFile (joinPath m.output_folder (m.filename ++ ".zip")),
          FsAction.removeDirAll tempDir], none)

/-! ## Build-command loop (src/main.rs) -/

/-- Build-command loop of run (src/main.rs lines 119-140): each command line
is whitespace-split; when the split is empty the loop continues with the next
command (no process is spawned, so no error can arise from that line);
otherwise the head is the program and the tail the arguments. Returns the
invocations in order. -/
def plannedInvocations : List String → List (String × List String)
  | [] => []
  | command :: rest =>
    match splitWhitespace command with
    | [] => plannedInvocations rest
    | program :: args => (program, args) :: plannedInvocations rest

/-! ## Concrete fixtures shared by witnesses and counterexamples -/

/-- A file-existence predicate under which every source is missing. -/
def alwaysMissing : String → Bool := fun _ => false

/-- An emerge configuration with every optional directive absent. -/
def emptyEmergeConfig : EmergeConfig :=
  { title := none, filename := none, build := [], copy := [], output_folder := none,
    icon := none, dmg := none, manifest := none }

/-- A Cargo.toml whose package identity is workspace-inherited
(`name.workspace = true`, `version.workspace = true`) and whose emerge
configuration is embedded directly in the package metadata. -/
def workspaceIdentityCargoToml : CargoToml :=
  { package := some
      { name := deserializeStringOrWorkspace .workspace
        version := deserializeStringOrWorkspace .workspace
        description := none
        metadata := some { emerge := some emptyEmergeConfig } }
    workspace := none }

/-- An emerge configuration that itself redirects to yet another external
manifest file. -/
def redirectingEmergeConfig : EmergeConfig :=
  { emptyEmergeConfig with manifest := some "another-manifest.toml" }

/-- Parse outcomes of an external packaging file that is a full Cargo.toml
whose emerge section contains a second-level manifest redirect. -/
def redirectingExternalParse : ExternalFileParse :=
  { asCargoToml := some
      { package := some
          { name := "demo", version := "1.0.0", description := none,
            metadata := some { emerge := some redirectingEmergeConfig } }
        workspace := none }
    asEmergeConfig := none }

/-- A resolved plan with a single copy operation. -/
def sampleManifest : Manifest :=
  { name := "demo", version := "1.0.0", description := "", title := "Demo",
    filename := "demo-linux-1.0.0", build_commands := [],
    copy_operations := [("/proj/target/release/demo", "demo")],
    output_folder := "/proj/setup", icon := none, dmg := none }

/-- A dmg configuration that only names a background image. -/
def bgOnlyDmgConfig : DmgConfig :=
  { background := some "art/bg.png", window_position := none, window_size := none,
    app_position := none, applications_position := none, additional_files := [] }

/-! ## Supporting lemmas -/

/-- The dmg documentation-extension test accepts exactly md, txt, pdf, html
and toml. -/
theorem dmgIsDocumentation_iff (e : Option String) :
    dmgIsDocumentation e = true ↔
      e ∈ [some "md", some "txt", some "pdf", some "html", some "toml"] := by
  unfold dmgIsDocumentation
  split <;> simp_all

/-- The tar.gz copy loop never emits an archive-file creation action. -/
theorem tarCopyLoop_no_createFile (fileExists : String → Bool) (appDir : String)
    (ops : List (String × String)) (p : String) :
    FsAction.createFile p ∉ (tarCopyLoop fileExists appDir ops).1 := by
  induction ops with
  | nil => simp [tarCopyLoop]
  | cons op rest ih =>
    obtain ⟨src, dst⟩ := op
    by_cases hfe : fileExists src
    · by_cases hdoc : archiveIsDocumentation (extensionOf dst) <;>
        simp [tarCopyLoop, hfe, hdoc, ih]
    · simp [tarCopyLoop, hfe]

/-- The tar.gz copy loop reports an error whenever one of its sources is
missing. -/
theorem tarCopyLoop_fails_of_missing (fileExists : String → Bool) (appDir : String)
    (ops : List (String × String)) (op : String × String)
    (hmem : op ∈ ops) (hfe : fileExists op.1 = false) :
    (tarCopyLoop fileExists appDir ops).2.isSome = true := by
  induction ops with
  | nil => cases hmem
  | cons head rest ih =>
    obtain ⟨s, d⟩ := head
    by_cases hs : fileExists s
    · rcases List.mem_cons.mp hmem with heq | hrest
      · rw [heq] at hfe
        simp only [hfe] at hs
        cases hs
      · simp only [tarCopyLoop, hs, if_true]
        exact ih hrest
    · simp [tarCopyLoop, hs]

/-- The zip copy loop never emits an archive-file creation action. -/
theorem zipCopyLoop_no_createFile (fileExists : String → Bool) (appDir : String)
    (ops : List (String × String)) (p : String) :
    FsAction.createFile p ∉ (zipCopyLoop fileExists appDir ops).1 := by
  induction ops with
  | nil => simp [zipCopyLoop]
  | cons op rest ih =>
    obtain ⟨src, dst⟩ := op
    by_cases hfe : fileExists src
    · simp [zipCopyLoop, hfe, ih]
    · simp [zipCopyLoop, hfe]

/-- The zip copy loop reports an error whenever one of its sources is
missing. -/
theorem zipCopyLoop_fails_of_missing (fileExists : String → Bool) (appDir : String)
    (ops : List (String × String)) (op : String × String)
    (hmem : op ∈ ops) (hfe : fileExists op.1 = false) :
    (zipCopyLoop fileExists appDir ops).2.isSome = true := by
  induction ops with
  | nil => cases hmem
  | cons head rest ih =>
    obtain ⟨s, d⟩ := head
    by_cases hs : fileExists s
    · rcases List.mem_cons.mp hmem with heq | hrest
      · rw [heq] at hfe
        simp only [hfe] at hs
        cases hs
      · simp only [zipCopyLoop, hs, if_true]
        exact ih hrest
    · simp [zipCopyLoop, hs]

/-! ## Claim theorems -/

/-- Claim C1: refuted by the source, which whitespace-tokenizes the matching
line instead of capturing from the volumes marker to end of line. On an
hdiutil attach output whose volume name contains a space, the extraction
returns the token truncated at the first whitespace inside the mount path,
not the full path. -/
theorem mount_point_truncated_at_whitespace :
    extractMountPoint
        "/dev/disk2              GUID_partition_scheme\n/dev/disk2s1            Apple_HFS                      /Volumes/My App"
      = some "/Volumes/My" ∧
    extractMountPoint
        "/dev/disk2              GUID_partition_scheme\n/dev/disk2s1            Apple_HFS                      /Volumes/My App"
      ≠ some "/Volumes/My App" := by
  decide

/-- Claim C2: refuted by the source. A package whose identity is
workspace-inherited deserializes to the empty-string placeholder, and
resolution succeeds with empty `name` and `version` in the plan instead of
failing: process_manifest performs no non-emptiness check. -/
theorem workspace_identity_resolved_with_empty_name :
    loadManifest "/proj" "macos" workspaceIdentityCargoToml =
      .ok { name := "", version := "", description := "", title := "",
            filename := "-macos-", build_commands := [], copy_operations := [],
            output_folder := "/proj/setup", icon := none, dmg := none } := by
  decide

/-- Claim C3, counterexample: the same variable mapping presented in two
iteration orders yields different outputs on the same input, because a value
substituted for one key is re-scanned by the keys processed after it. -/
theorem tpl_parse_order_dependence_cex :
    List.Perm [("A", "$B"), ("B", "x")] [("B", "x"), ("A", "$B")] ∧
    Tpl.parse [("A", "$B"), ("B", "x")] "$A" ≠ Tpl.parse [("B", "x"), ("A", "$B")] "$A" := by
  decide

/-- Claim C3, amended: Tpl.parse applies one whole-string replacement pass per
registered key sequentially to the accumulated result, so a substituted value
is re-scanned for the tokens of keys processed later (here the value `$B`
substituted for `$A` is itself replaced when key B is processed afterwards),
and the output can depend on the key iteration order. -/
theorem tpl_parse_sequential_rescan :
    Tpl.parse [("A", "$B"), ("B", "x")] "$A" = "x" ∧
    Tpl.parse [("B", "x"), ("A", "$B")] "$A" = "$B" := by
  decide

/-- Claim C4, counterexample: an external packaging file that itself contains
a manifest redirect resolves without error — the second redirect is neither
followed nor rejected. -/
theorem external_second_redirect_not_error_cex :
    isErrOutcome (loadWithEmergeManifest "/proj" "macos" true redirectingExternalParse)
      = false := by
  decide

/-- Claim C4, amended: when the external packaging-config file is a full
manifest with a package carrying an emerge section, resolution processes that
section in place regardless of its own `manifest` field: a second-level
redirect is silently ignored, and the result is identical to the one for the
same file with no redirect. -/
theorem external_second_redirect_ignored (baseDir platform path pkgName pkgVersion : String)
    (descr : Option String) (cfg : EmergeConfig) (ws : Option Workspace)
    (asEC : Option EmergeConfig) :
    loadWithEmergeManifest baseDir platform true
        { asCargoToml := some
            { package := some
                { name := pkgName, version := pkgVersion, description := descr,
                  metadata := some { emerge := some { cfg with manifest := some path } } }
              workspace := ws }
          asEmergeConfig := asEC }
      = .ok (processManifest baseDir platform
          { name := pkgName, version := pkgVersion, description := descr,
            metadata := some { emerge := some { cfg with manifest := some path } } }
          { cfg with manifest := some path }) ∧
    processManifest baseDir platform
        { name := pkgName, version := pkgVersion, description := descr,
          metadata := some { emerge := some { cfg with manifest := some path } } }
        { cfg with manifest := some path }
      = processManifest baseDir platform
          { name := pkgName, version := pkgVersion, description := descr,
            metadata := some { emerge := some { cfg with manifest := some path } } }
          { cfg with manifest := none } := by
  constructor
  · rfl
  · cases cfg
    rfl

/-- Claim C5, counterexample: a destination with extension json is routed
into the app bundle's MacOS folder, not to the staging root as claimed. -/
theorem dmg_json_routed_to_macos_cex :
    dmgDestPath "/tmp/stage" "/tmp/stage/Demo.app/Contents/MacOS" "config.json"
      = "/tmp/stage/Demo.app/Contents/MacOS/config.json" ∧
    dmgRouteOf "config.json" = .macosFolder := by
  decide

/-- Claim C5, amended: a copy destination is routed to the staging root
exactly when its extension is one of md, txt, pdf, html, toml; every other
destination — including json, yml and yaml — goes into the app bundle's
MacOS folder. -/
theorem dmg_routing_five_doc_extensions (tempDir macosDir dst : String) :
    (dmgRouteOf dst = .dmgRoot ↔
      extensionOf dst ∈ [some "md", some "txt", some "pdf", some "html", some "toml"]) ∧
    dmgDestPath tempDir macosDir dst =
      joinPath (if dmgRouteOf dst = .dmgRoot then tempDir else macosDir) dst := by
  constructor
  · rw [← dmgIsDocumentation_iff]
    unfold dmgRouteOf
    by_cases h : dmgIsDocumentation (extensionOf dst) <;> simp [h]
  · by_cases h : dmgIsDocumentation (extensionOf dst) <;>
      simp [dmgDestPath, dmgRouteOf, h]

/-- Claim C6, counterexample: the pixel sizes actually generated for a
decodable image are 16, 32, 32, 64, 128, 256, 256, 512, 512, 1024, which is
not a rearrangement of the claimed list 16, 16, 32, 32, 128, 128, 256, 256,
512, 1024 (the claimed list lacks the 64-pixel 32x32@2x variant, and has the
16 and 128 pairs wrong). -/
theorem icns_pixel_sizes_cex :
    icnsPixelSizes (generateIcnsFromImage (some ⟨0⟩))
        = some [16, 32, 32, 64, 128, 256, 256, 512, 512, 1024] ∧
    ¬ List.Perm [16, 32, 32, 64, 128, 256, 256, 512, 512, 1024]
        [16, 16, 32, 32, 128, 128, 256, 256, 512, 1024] := by
  decide

/-- Claim C6, amended: for every decodable source image the icon container
holds exactly the standard and double-density variant of each of
16/32/128/256/512 — pixel sizes 16, 32, 32, 64, 128, 256, 256, 512, 512,
1024 — each resized independently from the original image with the Lanczos3
filter. -/
theorem icns_generation_exact (img : DynamicImage) :
    generateIcnsFromImage (some img) = .ok
      [(.RGBA32_16x16, resizeExact img 16 16 .Lanczos3),
       (.RGBA32_16x16_2x, resizeExact img 32 32 .Lanczos3),
       (.RGBA32_32x32, resizeExact img 32 32 .Lanczos3),
       (.RGBA32_32x32_2x, resizeExact img 64 64 .Lanczos3),
       (.RGBA32_128x128, resizeExact img 128 128 .Lanczos3),
       (.RGBA32_128x128_2x, resizeExact img 256 256 .Lanczos3),
       (.RGBA32_256x256, resizeExact img 256 256 .Lanczos3),
       (.RGBA32_256x256_2x, resizeExact img 512 512 .Lanczos3),
       (.RGBA32_512x512, resizeExact img 512 512 .Lanczos3),
       (.RGBA32_512x512_2x, resizeExact img 1024 1024 .Lanczos3)] := rfl

/-- Claim C7: when any copy-operation source is missing, both archive
emitters stop with an error, and their effect traces never contain the
creation of the artifact file (the copy loop runs strictly before the
archive file is opened). -/
theorem copy_failure_aborts_before_artifact (fileExists : String → Bool)
    (tmpRoot : String) (m : Manifest)
    (hmiss : ∃ op ∈ m.copy_operations, fileExists op.1 = false) :
    ((createTarGz fileExists tmpRoot m).2.isSome = true ∧
      ∀ p, FsAction.createFile p ∉ (createTarGz fileExists tmpRoot m).1) ∧
    ((createZip fileExists tmpRoot m).2.isSome = true ∧
      ∀ p, FsAction.createFile p ∉ (createZip fileExists tmpRoot m).1) := by
  obtain ⟨op, hmem, hfe⟩ := hmiss
  constructor
  · have htar := tarCopyLoop_fails_of_missing fileExists
      (joinPath (joinPath tmpRoot ("emerge-" ++ m.name)) m.name) m.copy_operations op hmem hfe
    rcases hE : (tarCopyLoop fileExists
        (joinPath (joinPath tmpRoot ("emerge-" ++ m.name)) m.name) m.copy_operations).2
      with _ | missing
    · rw [hE] at htar
      simp at htar
    · constructor
      · simp [createTarGz, hE]
      · intro p
        have hno := tarCopyLoop_no_createFile fileExists
          (joinPath (joinPath tmpRoot ("emerge-" ++ m.name)) m.name) m.copy_operations p
        simp [createTarGz, hE, hno]
  · have hzip := zipCopyLoop_fails_of_missing fileExists
      (joinPath (joinPath tmpRoot ("emerge-" ++ m.name)) m.name) m.copy_operations op hmem hfe
    rcases hE : (zipCopyLoop fileExists
        (joinPath (joinPath tmpRoot ("emerge-" ++ m.name)) m.name) m.copy_operations).2
      with _ | missing
    · rw [hE] at hzip
      simp at hzip
    · constructor
      · simp [createZip, hE]
      · intro p
        have hno := zipCopyLoop_no_createFile fileExists
          (joinPath (joinPath tmpRoot ("emerge-" ++ m.name)) m.name) m.copy_operations p
        simp [createZip, hE, hno]

/-- Claim C7, witness: a concrete plan with one copy operation whose source
is missing aborts both emitters before any artifact-file creation. -/
theorem copy_failure_aborts_before_artifact_witness :
    (∃ op ∈ sampleManifest.copy_operations, alwaysMissing op.1 = false) ∧
    (((createTarGz alwaysMissing "/tmp" sampleManifest).2.isSome = true ∧
      ∀ p, FsAction.createFile p ∉ (createTarGz alwaysMissing "/tmp" sampleManifest).1) ∧
     ((createZip alwaysMissing "/tmp" sampleManifest).2.isSome = true ∧
      ∀ p, FsAction.createFile p ∉ (createZip alwaysMissing "/tmp" sampleManifest).1)) :=
  ⟨⟨("/proj/target/release/demo", "demo"), by decide, rfl⟩,
   copy_failure_aborts_before_artifact alwaysMissing "/tmp" sampleManifest
     ⟨("/proj/target/release/demo", "demo"), by decide, rfl⟩⟩

/-- Claim C8: for a plan with explicit window position (x, y) and size
(w, h) — within i32 range, where Rust addition coincides with integer
addition — the bounds interpolated into the layout script are exactly
(x, y, x + w, y + h). -/
theorem dmg_window_bounds_formula (x y w h : Int) (bg : Option String)
    (ap aps : Option (Int × Int)) (af : List DmgFile)
    (h1 : -(2 ^ 31) ≤ x + w) (h2 : x + w < 2 ^ 31)
    (h3 : -(2 ^ 31) ≤ y + h) (h4 : y + h < 2 ^ 31) :
    windowBounds (some ⟨bg, some (x, y), some (w, h), ap, aps, af⟩)
      = (x, y, x + w, y + h) := by
  have hred : windowBounds (some ⟨bg, some (x, y), some (w, h), ap, aps, af⟩)
      = (x, y, i32wrap (x + w), i32wrap (y + h)) := rfl
  rw [hred]
  have e1 : (2 : Int) ^ 31 = 2147483648 := by norm_num
  have e2 : (2 : Int) ^ 32 = 4294967296 := by norm_num
  unfold i32wrap
  simp only [e1, e2] at h1 h2 h3 h4 ⊢
  simp only [Prod.mk.injEq]
  exact ⟨trivial, trivial, by omega, by omega⟩

/-- Claim C8, witness: window_position (10, 10) with window_size (500, 300)
yields bounds exactly (10, 10, 510, 310). -/
theorem dmg_window_bounds_formula_witness :
    (-(2 ^ 31) ≤ (10 : Int) + 500 ∧ (10 : Int) + 500 < 2 ^ 31 ∧
     -(2 ^ 31) ≤ (10 : Int) + 300 ∧ (10 : Int) + 300 < 2 ^ 31) ∧
    windowBounds (some ⟨none, some (10, 10), some (500, 300), none, none, []⟩)
      = (10, 10, 510, 310) :=
  ⟨⟨by norm_num, by norm_num, by norm_num, by norm_num⟩,
   dmg_window_bounds_formula 10 10 500 300 none none none []
     (by norm_num) (by norm_num) (by norm_num) (by norm_num)⟩

/-- Claim C9: when the plan names a background image whose file does not
exist, the customize step performs no filesystem action for it and completes
without error; by contrast an undecodable icon never yields an icon family
(it is a hard failure). -/
theorem dmg_missing_background_skipped (fileExists : String → Bool)
    (baseDir mountPoint bgPath : String) (cfg : DmgConfig)
    (hbg : cfg.background = some bgPath)
    (hmiss : fileExists (joinPath baseDir bgPath) = false) :
    copyBackgroundStep fileExists baseDir (some cfg) mountPoint = .ok [] ∧
    ∀ r, generateIcnsFromImage none ≠ .ok r := by
  constructor
  · simp [copyBackgroundStep, hbg, hmiss]
  · intro r
    simp [generateIcnsFromImage]

/-- Claim C9, witness: a concrete plan naming a missing background image. -/
theorem dmg_missing_background_skipped_witness :
    (bgOnlyDmgConfig.background = some "art/bg.png" ∧
     alwaysMissing (joinPath "/proj" "art/bg.png") = false) ∧
    (copyBackgroundStep alwaysMissing "/proj" (some bgOnlyDmgConfig) "/Volumes/Demo"
        = .ok [] ∧
     ∀ r, generateIcnsFromImage none ≠ .ok r) :=
  ⟨⟨rfl, rfl⟩,
   dmg_missing_background_skipped alwaysMissing "/proj" "/Volumes/Demo" "art/bg.png"
     bgOnlyDmgConfig rfl rfl⟩

/-- Claim C10: a build command line whose whitespace-split is empty is
skipped — it contributes no invocation, raises no error, and the invocations
of every other command are unchanged and stay in order. -/
theorem blank_build_command_skipped (pre post : List String) (ws : String)
    (hws : splitWhitespace ws = []) :
    plannedInvocations (pre ++ ws :: post) = plannedInvocations (pre ++ post) := by
  induction pre with
  | nil => simp [plannedInvocations, hws]
  | cons c rest ih =>
    cases h : splitWhitespace c with
    | nil => simp [plannedInvocations, h, ih]
    | cons p a => simp [plannedInvocations, h, ih]

/-- Claim C10, witness: a whitespace-only command between two real commands
is dropped while both neighbours still run in order. -/
theorem blank_build_command_skipped_witness :
    splitWhitespace "  \t " = [] ∧
    plannedInvocations ["cargo build --release", "  \t ", "strip target/app"]
      = plannedInvocations ["cargo build --release", "strip target/app"] :=
  ⟨by decide,
   blank_build_command_skipped ["cargo build --release"] ["strip target/app"] "  \t "
     (by decide)⟩

end CargoEmerge
